import Mathlib

/-!
Verification development for the record-mapping engine of this repository
(`src/api/server.js`).  The core of the engine is the `POST /execute/config`
handler: configuration validation against the repository schemas, per-record
field mapping with transforms, and summary aggregation, together with the
JSON record extraction of `parseJSON`.

The embedding works on already-shape-validated configurations (the zod
`MappingConfigSchema.safeParse` call is an external library; a value of type
`MappingConfig` below is exactly a configuration that passed it) and on
already-parsed source values (the `JSON.parse` library call is factored out:
`parseJSONValue` receives its output).  JavaScript runtime values are
modelled by `JsValue`; JS numbers are modelled by `Rat` (finite decimals;
`NaN` is represented by `Option.none` at coercion points, `Infinity` and
non-decimal numeric literal forms such as hexadecimal are outside the model,
and no claim here depends on them).
-/

namespace ImportEngine

/-- JavaScript runtime values as they occur in this engine: `vUndef` is JS
`undefined` (the result of reading an absent property), `vNull` is JS
`null`; objects are key/value lists in property insertion order. -/
inductive JsValue where
  | vUndef : JsValue
  | vNull : JsValue
  | vBool : Bool → JsValue
  | vNum : Rat → JsValue
  | vStr : String → JsValue
  | vArr : List JsValue → JsValue
  | vObj : List (String × JsValue) → JsValue

/-- A JS object: keys with values, in property insertion order. -/
abbrev ObjMap := List (String × JsValue)

/-- A source record as produced by the source parsers: a flat JS object. -/
abbrev SourceRecord := ObjMap

/-- JS property read `o[k]`: the stored value, or `undefined` when the key
is absent. -/
def getKey : ObjMap → String → JsValue
  | [], _ => .vUndef
  | (k', v) :: rest, k => if k' = k then v else getKey rest k

/-- JS property assignment `o[k] = v`: updates the value in place when the
key exists (keeping its position), otherwise appends the key. -/
def setKey : ObjMap → String → JsValue → ObjMap
  | [], k, v => [(k, v)]
  | (k', v') :: rest, k, v =>
      if k' = k then (k', v) :: rest else (k', v') :: setKey rest k v

/-- The emptiness test used twice in the handler:
`value === undefined || value === null || value === ''`. -/
def isEmptyValue : JsValue → Bool
  | .vUndef => true
  | .vNull => true
  | .vStr s => s == ""
  | _ => false

/-- JS truthiness of a value (`NaN`, which is falsy in JS, has no
representative in the model). -/
def jsTruthy : JsValue → Bool
  | .vUndef => false
  | .vNull => false
  | .vBool b => b
  | .vNum q => if q = 0 then false else true
  | .vStr s => if s = "" then false else true
  | .vArr _ => true
  | .vObj _ => true

/-- Leading and trailing whitespace removal on character lists. -/
def trimChars (cs : List Char) : List Char :=
  ((cs.dropWhile Char.isWhitespace).reverse.dropWhile Char.isWhitespace).reverse

/-- JS `String.prototype.trim` (also the whitespace stripping of
`Number(string)`). -/
def jsTrim (s : String) : String := ⟨trimChars s.data⟩

/-- JS `String.prototype.toUpperCase` (ASCII case mapping). -/
def jsUpper (s : String) : String := ⟨s.data.map Char.toUpper⟩

/-- JS `String.prototype.toLowerCase` (ASCII case mapping). -/
def jsLower (s : String) : String := ⟨s.data.map Char.toLower⟩

/-- Comma-separated join, as in JS `Array.prototype.join(",")`. -/
def joinComma : List String → String
  | [] => ""
  | [s] => s
  | s :: rest => s ++ "," ++ joinComma rest

/-- Decimal digit string to a natural number. -/
def digitsToNat (ds : List Char) : Nat :=
  ds.foldl (fun a c => a * 10 + (c.toNat - '0'.toNat)) 0

/-- Split a leading run of decimal digits off a character list. -/
def takeDigits (cs : List Char) : List Char × List Char :=
  (cs.takeWhile Char.isDigit, cs.dropWhile Char.isDigit)

/-- Optional leading sign of a numeric literal. -/
def parseSign : List Char → Int × List Char
  | '+' :: rest => (1, rest)
  | '-' :: rest => (-1, rest)
  | cs => (1, cs)

/-- Optional exponent part `e`/`E` of a numeric literal; yields exponent 0
when absent, and fails when an `e` is not followed by digits. -/
def parseExponent : List Char → Option (Int × List Char)
  | [] => some (0, [])
  | c :: rest =>
      if c = 'e' ∨ c = 'E' then
        let sr := parseSign rest
        let dr := takeDigits sr.2
        if dr.1 = [] then none else some (sr.1 * (digitsToNat dr.1 : Int), dr.2)
      else some (0, c :: rest)

/-- A signed decimal numeric literal `[+-]? digits [. digits]? ([eE][+-]?digits)?`,
requiring the whole input to be consumed; `none` models `NaN`. -/
def parseDecimal (cs : List Char) : Option Rat :=
  let sc := parseSign cs
  let ic := takeDigits sc.2
  match ic.2 with
  | '.' :: cs3 =>
      let fc := takeDigits cs3
      if ic.1 = [] ∧ fc.1 = [] then none
      else
        match parseExponent fc.2 with
        | some (e, []) =>
            some ((sc.1 : Rat) *
              ((digitsToNat ic.1 : Rat) + (digitsToNat fc.1 : Rat) / (10 ^ fc.1.length)) *
              (10 : Rat) ^ e)
        | _ => none
  | _ =>
      if ic.1 = [] then none
      else
        match parseExponent ic.2 with
        | some (e, []) =>
            some ((sc.1 : Rat) * (digitsToNat ic.1 : Rat) * (10 : Rat) ^ e)
        | _ => none

/-- JS `Number(string)`: whitespace is trimmed, the empty string coerces to
`0`, otherwise the text must be a numeric literal; `none` models `NaN`.
(Hexadecimal/binary/octal literal forms and `Infinity` are outside the
model; no claim depends on them.) -/
def strToNumber (s : String) : Option Rat :=
  let t := jsTrim s
  if t = "" then some 0 else parseDecimal t.toList

/-- Rendering of a JS number as a string; exact for integers (the only case
any claim evaluates), with a schematic fraction rendering otherwise. -/
def ratToString (q : Rat) : String :=
  if q.den = 1 then toString q.num else toString q.num ++ "/" ++ toString q.den

mutual

/-- JS `String(value)` conversion for the values of the model. -/
def jsToString : JsValue → String
  | .vUndef => "undefined"
  | .vNull => "null"
  | .vBool b => if b then "true" else "false"
  | .vNum q => ratToString q
  | .vStr s => s
  | .vArr l => joinComma (jsToStringElems l)
  | .vObj _ => "[object Object]"

/-- Element rendering of JS `Array.prototype.toString` (a `join(",")`):
`null` and `undefined` elements render as the empty string. -/
def jsToStringElems : List JsValue → List String
  | [] => []
  | .vUndef :: rest => "" :: jsToStringElems rest
  | .vNull :: rest => "" :: jsToStringElems rest
  | v :: rest => jsToString v :: jsToStringElems rest

end

/-- JS `Number(value)` coercion on model values; `none` models `NaN`. -/
def jsToNumber : JsValue → Option Rat
  | .vUndef => none
  | .vNull => some 0
  | .vBool b => some (if b then 1 else 0)
  | .vNum q => some q
  | .vStr s => strToNumber s
  | .vArr l => strToNumber (jsToString (.vArr l))
  | .vObj l => strToNumber (jsToString (.vObj l))

/-- The transform enumeration of `MappingConfigSchema`. -/
inductive Transform where
  | none : Transform
  | uppercase : Transform
  | lowercase : Transform
  | trim : Transform
  | number : Transform
deriving DecidableEq

/-- One entry of `fieldMappings`. -/
structure FieldMapping where
  sourceField : String
  targetField : String
  transform : Option Transform
deriving DecidableEq

/-- The `options` object of a mapping configuration. -/
structure MappingOptions where
  skipEmptyFields : Bool
  validateRequired : Bool
deriving DecidableEq

/-- The closed target-repository catalog of the zod enum. -/
inductive Repo where
  | users : Repo
  | products : Repo
  | orders : Repo
deriving DecidableEq

/-- A target repository schema entry. -/
structure RepoSchema where
  required : List String
  optionalFields : List String

/-- The `REPOSITORY_SCHEMA` table of `src/api/server.js`. -/
def REPOSITORY_SCHEMA : Repo → RepoSchema
  | .users => ⟨["id", "email", "name"], ["phone", "address", "role"]⟩
  | .products => ⟨["sku", "name", "price"], ["description", "category", "stock"]⟩
  | .orders => ⟨["orderId", "customerId", "total"], ["status", "createdAt", "items"]⟩

/-- The source type enumeration of `MappingConfigSchema`. -/
inductive SourceType where
  | csv : SourceType
  | json : SourceType
deriving DecidableEq

/-- A mapping configuration that passed the zod shape validation
(`MappingConfigSchema.safeParse`). -/
structure MappingConfig where
  name : String
  sourceType : SourceType
  targetRepository : Repo
  idField : String
  fieldMappings : List FieldMapping
  options : MappingOptions

/-- The error message pushed when a `number` transform fails
(`Field "<sourceField>" could not be converted to number`). -/
def numberErrMsg (sourceField : String) : String :=
  "Field \"" ++ sourceField ++ "\" could not be converted to number"

/-- The switch on `mapping.transform` inside the per-record loop, applied
only when the value is neither `undefined` nor `null`; yields the value to
store and the error pushed, if any.  A failing `number` coercion stores the
fallback `0` and pushes one error naming the source field. -/
def transformValue (sourceField : String) (t : Option Transform) (v : JsValue) :
    JsValue × Option String :=
  match v with
  | .vUndef => (v, Option.none)
  | .vNull => (v, Option.none)
  | _ =>
    match t with
    | some .uppercase => (.vStr (jsUpper (jsToString v)), Option.none)
    | some .lowercase => (.vStr (jsLower (jsToString v)), Option.none)
    | some .trim => (.vStr (jsTrim (jsToString v)), Option.none)
    | some .number =>
        match jsToNumber v with
        | some q => (.vNum q, Option.none)
        | Option.none => (.vNum 0, some (numberErrMsg sourceField))
    | _ => (v, Option.none)

/-- One iteration of the `for (const mapping of validConfig.fieldMappings)`
loop: read the raw value, skip when empty and `skipEmptyFields` is set,
otherwise transform (pushing any transform error) and assign
`data[mapping.targetField] = value`. -/
def mappingStep (o : MappingOptions) (rec : SourceRecord)
    (acc : ObjMap × List String) (m : FieldMapping) : ObjMap × List String :=
  let value := getKey rec m.sourceField
  if isEmptyValue value && o.skipEmptyFields then acc
  else
    let tv := transformValue m.sourceField m.transform value
    (setKey acc.1 m.targetField tv.1,
     match tv.2 with
     | Option.none => acc.2
     | some e => acc.2 ++ [e])

/-- The value a mapping entry writes for a record, or `none` when the entry
is skipped (empty raw value under `skipEmptyFields`). -/
def mappedWrite (o : MappingOptions) (rec : SourceRecord) (m : FieldMapping) :
    Option JsValue :=
  let value := getKey rec m.sourceField
  if isEmptyValue value && o.skipEmptyFields then Option.none
  else some (transformValue m.sourceField m.transform value).1

/-- The data-object effect of one mapping entry, in isolation. -/
def dataStep (o : MappingOptions) (rec : SourceRecord) (d : ObjMap)
    (m : FieldMapping) : ObjMap :=
  match mappedWrite o rec m with
  | Option.none => d
  | some v => setKey d m.targetField v

/-- The errors one mapping entry appends for a record (empty or one
message). -/
def entryErrors (o : MappingOptions) (rec : SourceRecord) (m : FieldMapping) :
    List String :=
  let value := getKey rec m.sourceField
  if isEmptyValue value && o.skipEmptyFields then []
  else
    match (transformValue m.sourceField m.transform value).2 with
    | Option.none => []
    | some e => [e]

/-- The error message pushed for a missing identifier
(`Missing ID field "<idField>"`). -/
def missingIdMsg (idField : String) : String :=
  "Missing ID field \"" ++ idField ++ "\""

/-- The identifier check at the top of the per-record loop: an
absent/null/empty-string `sourceRecord[idField]` records one error. -/
def idErrors (cfg : MappingConfig) (rec : SourceRecord) : List String :=
  if isEmptyValue (getKey rec cfg.idField) then [missingIdMsg cfg.idField] else []

/-- The `(data, recordErrors)` pair after the whole field-mapping loop for
one record (the identifier error, when present, precedes mapping errors,
matching push order). -/
def recordResult (cfg : MappingConfig) (rec : SourceRecord) :
    ObjMap × List String :=
  cfg.fieldMappings.foldl (mappingStep cfg.options rec) ([], idErrors cfg rec)

/-- The `recordErrors` list of one record. -/
def recordErrors (cfg : MappingConfig) (rec : SourceRecord) : List String :=
  (recordResult cfg rec).2

/-- The `_meta` object of a standardized record. -/
structure MetaInfo where
  sourceIndex : Nat
  importedAt : String
  success : Bool
  errors : Option (List String)
deriving DecidableEq

/-- A standardized record as assembled by the handler.  The JSON key of
`meta` in the source is `_meta`. -/
structure StandardizedRecord where
  id : String
  type : Repo
  data : ObjMap
  meta : MetaInfo

/-- Assembly of one standardized record: id with truthiness-based fallback
`String(recordId || unknown-index)`, mapped data, and `_meta` with
`success` iff no record-local error occurred. -/
def processRecord (cfg : MappingConfig) (importedAt : String) (index : Nat)
    (rec : SourceRecord) : StandardizedRecord :=
  let recordId := getKey rec cfg.idField
  let res := recordResult cfg rec
  { id := if jsTruthy recordId then jsToString recordId
          else "unknown-" ++ toString index
    type := cfg.targetRepository
    data := res.1
    meta := { sourceIndex := index
              importedAt := importedAt
              success := res.2.length == 0
              errors := if res.2.length > 0 then some res.2 else Option.none } }

/-- The whole per-record loop over the parsed source records. -/
def importRecords (cfg : MappingConfig) (importedAt : String)
    (sourceRecords : List SourceRecord) : List StandardizedRecord :=
  sourceRecords.enum.map (fun p => processRecord cfg importedAt p.1 p.2)

/-- The `summary` object of a successful import. -/
structure ImportSummary where
  totalRecords : Nat
  successfulImports : Nat
  failedImports : Nat
  targetRepository : Repo
  importedAt : String
deriving DecidableEq

/-- The JSON body answered by `POST /execute/config` after shape validation
succeeded: absent JSON keys are `none`.  Validation errors are
`(path, message)` pairs. -/
structure ExecuteResponse where
  valid : Bool
  message : Option String
  summary : Option ImportSummary
  records : Option (List StandardizedRecord)
  errors : Option (List (String × String))

/-- `validConfig.fieldMappings.map(m => m.targetField)`. -/
def mappedTargetFields (cfg : MappingConfig) : List String :=
  cfg.fieldMappings.map (fun m => m.targetField)

/-- The filter `repoSchema.required.filter` dropping the literal field name `id`. -/
def requiredWithoutId (cfg : MappingConfig) : List String :=
  (REPOSITORY_SCHEMA cfg.targetRepository).required.filter (fun f => f != "id")

/-- `requiredWithoutId.filter(f => !mappedTargetFields.includes(f))`. -/
def missingRequired (cfg : MappingConfig) : List String :=
  (requiredWithoutId cfg).filter (fun f => !(mappedTargetFields cfg).contains f)

/-- The coverage-validation error message for one missing target field. -/
def missingFieldErr (field : String) : String :=
  "Missing required target field: \"" ++ field ++ "\""

/-- The `POST /execute/config` core after shape validation, on an
already-parsed source sequence: required-field coverage validation, the
empty-source branch, then the import loop and summary.  (The source-text
parse step sits between validation and the empty check in the handler and
is factored out here; its failure branch is not needed by any claim.) -/
def executeConfig (cfg : MappingConfig) (sourceRecords : List SourceRecord)
    (importedAt : String) : ExecuteResponse :=
  if cfg.options.validateRequired ∧ 0 < (missingRequired cfg).length then
    { valid := false
      message := Option.none
      summary := Option.none
      records := Option.none
      errors := some ((missingRequired cfg).map
        (fun field => ("fieldMappings", missingFieldErr field))) }
  else if sourceRecords.length = 0 then
    { valid := true
      message := some "Source file parsed but contains no records."
      summary := Option.none
      records := some []
      errors := Option.none }
  else
    let records := importRecords cfg importedAt sourceRecords
    let successCount := (records.filter (fun r => r.meta.success)).length
    { valid := true
      message := Option.none
      summary := some { totalRecords := sourceRecords.length
                        successfulImports := successCount
                        failedImports := sourceRecords.length - successCount
                        targetRepository := cfg.targetRepository
                        importedAt := importedAt }
      records := some records
      errors := Option.none }

/-- The object scan of `parseJSON`: the value of the first key holding an
array, if any. -/
def firstArrayProp : List (String × JsValue) → Option (List JsValue)
  | [] => Option.none
  | (_, .vArr a) :: _ => some a
  | _ :: rest => firstArrayProp rest

/-- The record-extraction logic of `parseJSON` on the output of the
`JSON.parse` library call: an array is the record sequence itself; in an
object, the first array-valued key (in property order) wins; otherwise the
whole value is wrapped as a one-element sequence.  (A `null` top-level
value makes `Object.keys` throw in the source and is outside the model.) -/
def parseJSONValue : JsValue → List JsValue
  | .vArr l => l
  | .vObj fs =>
      match firstArrayProp fs with
      | some a => a
      | Option.none => [.vObj fs]
  | v => [v]

/-- The spec's formula for coverage validation, stated as written in §4.3:
`missingRequired = requiredFields − {targetField values appearing in
fieldMappings}`, the `idField`-supplied identifier (the output field `id`)
being exempt from the set; declared for comparison with the source's
`missingRequired`. -/
def specMissingRequired (cfg : MappingConfig) : List String :=
  (REPOSITORY_SCHEMA cfg.targetRepository).required.filter
    (fun f => !(mappedTargetFields cfg).contains f && f != "id")

/-- A standardized record with its `importedAt` stamp blanked, to compare
two import runs modulo the timestamp. -/
def scrubImportedAt (r : StandardizedRecord) : StandardizedRecord :=
  { r with meta := { r.meta with importedAt := "" } }

/-! ### Concrete fixtures used by witnesses and counterexamples -/

/-- A users configuration missing the required `email` mapping. -/
def cfgMissingEmail : MappingConfig :=
  { name := "users missing email", sourceType := .csv, targetRepository := .users,
    idField := "id", fieldMappings := [⟨"name", "name", Option.none⟩],
    options := { skipEmptyFields := false, validateRequired := true } }

/-- A fully valid users configuration. -/
def cfgUsersOk : MappingConfig :=
  { name := "users ok", sourceType := .json, targetRepository := .users,
    idField := "id",
    fieldMappings := [⟨"email", "email", Option.none⟩, ⟨"name", "name", Option.none⟩],
    options := { skipEmptyFields := false, validateRequired := true } }

/-- A configuration with two mappings onto the same target field `t`. -/
def cfgDupTarget : MappingConfig :=
  { name := "dup", sourceType := .csv, targetRepository := .users,
    idField := "id",
    fieldMappings := [⟨"a", "t", Option.none⟩, ⟨"b", "t", Option.none⟩],
    options := { skipEmptyFields := true, validateRequired := false } }

/-- A record feeding both duplicate-target mappings of `cfgDupTarget`. -/
def recDupTarget : SourceRecord :=
  [("id", .vStr "1"), ("a", .vStr "x"), ("b", .vStr "y")]

/-- A products configuration with a `number` transform on `price`. -/
def cfgNumFail : MappingConfig :=
  { name := "products", sourceType := .csv, targetRepository := .products,
    idField := "sku",
    fieldMappings := [⟨"name", "name", Option.none⟩,
                      ⟨"price", "price", some .number⟩],
    options := { skipEmptyFields := false, validateRequired := true } }

/-- A record whose `price` is the non-numeric string `abc`. -/
def recNumFail : SourceRecord :=
  [("sku", .vStr "s1"), ("name", .vStr "N"), ("price", .vStr "abc")]

/-- A record with no `id` key at all. -/
def recNoId : SourceRecord := [("email", .vStr "e@x.y"), ("name", .vStr "n")]

/-- A users configuration with `skipEmptyFields` enabled. -/
def cfgSkip : MappingConfig :=
  { name := "skip", sourceType := .csv, targetRepository := .users,
    idField := "id", fieldMappings := [⟨"email", "email", Option.none⟩],
    options := { skipEmptyFields := true, validateRequired := false } }

/-- A record whose `email` raw value is the empty string. -/
def recEmptyEmail : SourceRecord := [("id", .vStr "1"), ("email", .vStr "")]

/-- A products configuration with a `number` transform and
`skipEmptyFields` disabled. -/
def cfgNumEmpty : MappingConfig :=
  { name := "products", sourceType := .csv, targetRepository := .products,
    idField := "sku",
    fieldMappings := [⟨"name", "name", Option.none⟩,
                      ⟨"price", "price", some .number⟩],
    options := { skipEmptyFields := false, validateRequired := true } }

/-- A record whose `price` raw value is the empty string. -/
def recPriceEmpty : SourceRecord :=
  [("sku", .vStr "s1"), ("name", .vStr "N"), ("price", .vStr "")]

/-- An orders configuration whose `idField` points at a numeric field. -/
def cfgIdZero : MappingConfig :=
  { name := "orders", sourceType := .json, targetRepository := .orders,
    idField := "orderId",
    fieldMappings := [⟨"customerId", "customerId", Option.none⟩,
                      ⟨"total", "total", some .number⟩],
    options := { skipEmptyFields := false, validateRequired := true } }

/-- A record whose `orderId` is the JS number `0` (present but falsy). -/
def recIdZero : SourceRecord :=
  [("orderId", .vNum 0), ("customerId", .vStr "c1"), ("total", .vStr "5")]

/-! ### Helper lemmas about the mapping loop -/

theorem mappingStep_fst (o : MappingOptions) (rec : SourceRecord)
    (acc : ObjMap × List String) (m : FieldMapping) :
    (mappingStep o rec acc m).1 = dataStep o rec acc.1 m := by
  unfold mappingStep dataStep mappedWrite
  by_cases h : (isEmptyValue (getKey rec m.sourceField) && o.skipEmptyFields) = true
  · simp [h]
  · simp [h]

theorem mappingStep_snd (o : MappingOptions) (rec : SourceRecord)
    (acc : ObjMap × List String) (m : FieldMapping) :
    (mappingStep o rec acc m).2 = acc.2 ++ entryErrors o rec m := by
  unfold mappingStep entryErrors
  by_cases h : (isEmptyValue (getKey rec m.sourceField) && o.skipEmptyFields) = true
  · simp [h]
  · cases h2 : (transformValue m.sourceField m.transform (getKey rec m.sourceField)).2 <;>
      simp [h, h2]

theorem foldl_mappingStep_fst (o : MappingOptions) (rec : SourceRecord)
    (ms : List FieldMapping) (acc : ObjMap × List String) :
    (ms.foldl (mappingStep o rec) acc).1 = ms.foldl (dataStep o rec) acc.1 := by
  induction ms generalizing acc with
  | nil => rfl
  | cons m ms ih =>
      rw [List.foldl_cons, List.foldl_cons, ih, mappingStep_fst]

theorem foldl_mappingStep_snd (o : MappingOptions) (rec : SourceRecord)
    (ms : List FieldMapping) (acc : ObjMap × List String) :
    (ms.foldl (mappingStep o rec) acc).2 =
      acc.2 ++ (ms.map (entryErrors o rec)).flatten := by
  induction ms generalizing acc with
  | nil => simp
  | cons m ms ih =>
      rw [List.foldl_cons, ih, mappingStep_snd, List.map_cons, List.flatten_cons,
        List.append_assoc]

theorem recordResult_fst (cfg : MappingConfig) (rec : SourceRecord) :
    (recordResult cfg rec).1 =
      cfg.fieldMappings.foldl (dataStep cfg.options rec) [] :=
  foldl_mappingStep_fst cfg.options rec cfg.fieldMappings ([], idErrors cfg rec)

theorem recordErrors_eq (cfg : MappingConfig) (rec : SourceRecord) :
    recordErrors cfg rec =
      idErrors cfg rec ++ (cfg.fieldMappings.map (entryErrors cfg.options rec)).flatten :=
  foldl_mappingStep_snd cfg.options rec cfg.fieldMappings ([], idErrors cfg rec)

theorem getKey_setKey_self (d : ObjMap) (k : String) (v : JsValue) :
    getKey (setKey d k v) k = v := by
  induction d with
  | nil => simp [setKey, getKey]
  | cons kv rest ih =>
      obtain ⟨k', v'⟩ := kv
      by_cases h : k' = k
      · simp [setKey, getKey, h]
      · simp [setKey, getKey, h, ih]

theorem getKey_setKey_ne (d : ObjMap) (k k' : String) (v : JsValue)
    (h : k ≠ k') : getKey (setKey d k' v) k = getKey d k := by
  have hk : ¬ (k' = k) := fun hh => h hh.symm
  induction d with
  | nil => simp [setKey, getKey, hk]
  | cons kv rest ih =>
      obtain ⟨k0, v0⟩ := kv
      by_cases h0 : k0 = k'
      · subst h0
        simp [setKey, getKey, hk]
      · simp [setKey, getKey, h0, ih]

theorem mem_keys_setKey (d : ObjMap) (a k : String) (v : JsValue) :
    a ∈ (setKey d k v).map Prod.fst ↔ a = k ∨ a ∈ d.map Prod.fst := by
  induction d with
  | nil => simp [setKey]
  | cons kv rest ih =>
      obtain ⟨k0, v0⟩ := kv
      by_cases h0 : k0 = k
      · subst h0
        have hss : setKey ((k0, v0) :: rest) k0 v = (k0, v) :: rest := by
          simp [setKey]
        rw [hss]
        simp only [List.map_cons, List.mem_cons]
        tauto
      · simp only [setKey, if_neg h0, List.map_cons, List.mem_cons, ih]
        tauto

theorem getKey_foldl_dataStep_of_not_target (o : MappingOptions)
    (rec : SourceRecord) (a : String) (ms : List FieldMapping) (d : ObjMap)
    (h : ∀ m ∈ ms, m.targetField ≠ a) :
    getKey (ms.foldl (dataStep o rec) d) a = getKey d a := by
  induction ms generalizing d with
  | nil => rfl
  | cons m ms ih =>
      rw [List.foldl_cons, ih _ (fun m' hm' => h m' (List.mem_cons_of_mem _ hm'))]
      unfold dataStep
      cases hw : mappedWrite o rec m with
      | none => rfl
      | some v =>
          exact getKey_setKey_ne d a m.targetField v
            (fun hh => h m (List.mem_cons_self m ms) hh.symm)

theorem getKey_foldl_dataStep_last (o : MappingOptions) (rec : SourceRecord)
    (pre post : List FieldMapping) (m : FieldMapping) (d : ObjMap) (v : JsValue)
    (hw : mappedWrite o rec m = some v)
    (hpost : ∀ m' ∈ post, m'.targetField ≠ m.targetField) :
    getKey ((pre ++ m :: post).foldl (dataStep o rec) d) m.targetField = v := by
  rw [List.foldl_append, List.foldl_cons,
    getKey_foldl_dataStep_of_not_target o rec m.targetField post _ hpost]
  unfold dataStep
  rw [hw]
  exact getKey_setKey_self _ _ _

theorem mem_keys_foldl_dataStep (o : MappingOptions) (rec : SourceRecord)
    (a : String) (ms : List FieldMapping) (d : ObjMap) :
    a ∈ ((ms.foldl (dataStep o rec) d).map Prod.fst) ↔
      a ∈ d.map Prod.fst ∨
        ∃ m ∈ ms, m.targetField = a ∧ (mappedWrite o rec m).isSome = true := by
  induction ms generalizing d with
  | nil => simp
  | cons m ms ih =>
      rw [List.foldl_cons, ih]
      unfold dataStep
      cases hw : mappedWrite o rec m with
      | none =>
          simp only [List.mem_cons]
          constructor
          · rintro (hd | ⟨m', hm', ha, hs⟩)
            · exact Or.inl hd
            · exact Or.inr ⟨m', Or.inr hm', ha, hs⟩
          · rintro (hd | ⟨m', hm' | hm', ha, hs⟩)
            · exact Or.inl hd
            · subst hm'
              rw [hw] at hs
              simp at hs
            · exact Or.inr ⟨m', hm', ha, hs⟩
      | some v =>
          rw [mem_keys_setKey]
          simp only [List.mem_cons]
          constructor
          · rintro ((ha | hd) | ⟨m', hm', ha, hs⟩)
            · exact Or.inr ⟨m, Or.inl rfl, ha.symm, by simp [hw]⟩
            · exact Or.inl hd
            · exact Or.inr ⟨m', Or.inr hm', ha, hs⟩
          · rintro (hd | ⟨m', hm' | hm', ha, hs⟩)
            · exact Or.inl (Or.inr hd)
            · subst hm'
              exact Or.inl (Or.inl ha.symm)
            · exact Or.inr ⟨m', hm', ha, hs⟩

theorem processRecord_success (cfg : MappingConfig) (t : String) (i : Nat)
    (rec : SourceRecord) :
    (processRecord cfg t i rec).meta.success = true ↔ recordErrors cfg rec = [] := by
  show ((recordResult cfg rec).2.length == 0) = true ↔ recordErrors cfg rec = []
  rw [beq_iff_eq, List.length_eq_zero]
  exact Iff.rfl

theorem isEmptyValue_not_truthy (v : JsValue) (h : isEmptyValue v = true) :
    jsTruthy v = false := by
  cases v with
  | vStr s =>
      have hs : s = "" := by simpa [isEmptyValue] using h
      simp [jsTruthy, hs]
  | _ => first | rfl | simp [isEmptyValue] at h

/-! ### Claim theorems -/

/-- C1: for every shape-valid configuration with `validateRequired = true`,
coverage validation computes `missingRequired` as the target schema's
required fields minus the target fields appearing in `fieldMappings`, the
identifier field `id` (supplied out-of-band via `idField`) being exempt;
when the set is non-empty the response is `valid := false` with one
`Missing required target field` error per missing field at path
`fieldMappings`, and validation passes whenever every non-identifier
required field is mapped. -/
theorem claim_C1 (cfg : MappingConfig) (sourceRecords : List SourceRecord)
    (importedAt : String) (hv : cfg.options.validateRequired = true) :
    missingRequired cfg = specMissingRequired cfg ∧
    (missingRequired cfg = [] ↔
      ∀ f ∈ (REPOSITORY_SCHEMA cfg.targetRepository).required,
        f ≠ "id" → f ∈ mappedTargetFields cfg) ∧
    (missingRequired cfg ≠ [] →
      executeConfig cfg sourceRecords importedAt =
        { valid := false
          message := Option.none
          summary := Option.none
          records := Option.none
          errors := some ((missingRequired cfg).map
            (fun field => ("fieldMappings", missingFieldErr field))) }) ∧
    (missingRequired cfg = [] →
      (executeConfig cfg sourceRecords importedAt).valid = true) := by
  refine ⟨?_, ?_, ?_, ?_⟩
  · unfold missingRequired requiredWithoutId specMissingRequired
    rw [List.filter_filter]
  · unfold missingRequired requiredWithoutId
    rw [List.filter_eq_nil_iff]
    constructor
    · intro h f hf hne
      have hmem : f ∈ (REPOSITORY_SCHEMA cfg.targetRepository).required.filter
          (fun f => f != "id") := List.mem_filter.mpr ⟨hf, by simp [hne]⟩
      have := h f hmem
      simpa using this
    · intro h f hf
      rw [List.mem_filter] at hf
      have hne : f ≠ "id" := by simpa using hf.2
      simp [h f hf.1 hne]
  · intro hne
    unfold executeConfig
    rw [if_pos ⟨hv, List.length_pos.mpr hne⟩]
  · intro hnil
    unfold executeConfig
    rw [if_neg (by rintro ⟨h1, h2⟩; rw [hnil] at h2; simp at h2)]
    by_cases h0 : sourceRecords.length = 0
    · rw [if_pos h0]
    · rw [if_neg h0]

/-- C1 witness: at the concrete `cfgMissingEmail`, validation fails with
exactly the one error naming `email`. -/
theorem claim_C1_witness :
    executeConfig cfgMissingEmail [] "2026-01-28T12:00:00Z" =
      { valid := false
        message := Option.none
        summary := Option.none
        records := Option.none
        errors := some [("fieldMappings", missingFieldErr "email")] } := by
  have h := (claim_C1 cfgMissingEmail [] "2026-01-28T12:00:00Z" rfl).2.2.1
    (by decide)
  rw [h]
  rfl

/-- C2: for every record processed under any configuration, the final value
stored in `data[targetField]` is the value produced by the last entry in
list order writing that target field (last-write-wins), for either setting
of `skipEmptyFields` (a skipped entry produces no write). -/
theorem claim_C2 (cfg : MappingConfig) (importedAt : String) (index : Nat)
    (rec : SourceRecord) (pre post : List FieldMapping) (m : FieldMapping)
    (v : JsValue) (hms : cfg.fieldMappings = pre ++ m :: post)
    (hpost : ∀ m' ∈ post, m'.targetField ≠ m.targetField)
    (hw : mappedWrite cfg.options rec m = some v) :
    getKey (processRecord cfg importedAt index rec).data m.targetField = v := by
  show getKey (recordResult cfg rec).1 m.targetField = v
  rw [recordResult_fst, hms]
  exact getKey_foldl_dataStep_last cfg.options rec pre post m [] v hw hpost

/-- C2 witness: with two mappings onto target `t`, the later entry's value
`y` wins. -/
theorem claim_C2_witness :
    getKey (processRecord cfgDupTarget "T" 0 recDupTarget).data "t" =
      .vStr "y" :=
  claim_C2 cfgDupTarget "T" 0 recDupTarget [⟨"a", "t", Option.none⟩] []
    ⟨"b", "t", Option.none⟩ (.vStr "y") rfl (by simp) rfl

/-- C3 counterexample: at a concrete valid configuration with an empty
parsed source sequence, the response is `valid := true` with empty records
but carries no Import Summary at all (`summary = none`), so no
`totalRecords = 0` summary is returned, contrary to the claim. -/
theorem claim_C3_counterexample :
    (executeConfig cfgUsersOk [] "2026-01-28T12:00:00Z").valid = true ∧
    (executeConfig cfgUsersOk [] "2026-01-28T12:00:00Z").records = some [] ∧
    (executeConfig cfgUsersOk [] "2026-01-28T12:00:00Z").summary = Option.none :=
  ⟨rfl, rfl, rfl⟩

/-- C3 (amended): a valid configuration with an empty parsed source
sequence yields `valid := true` with an empty record list and an
explanatory message, and no Import Summary is included. -/
theorem claim_C3_amended (cfg : MappingConfig) (importedAt : String)
    (h : cfg.options.validateRequired = true → missingRequired cfg = []) :
    executeConfig cfg [] importedAt =
      { valid := true
        message := some "Source file parsed but contains no records."
        summary := Option.none
        records := some []
        errors := Option.none } := by
  have hneg : ¬(cfg.options.validateRequired = true ∧
      0 < (missingRequired cfg).length) := by
    rintro ⟨h1, h2⟩
    rw [h h1] at h2
    simp at h2
  unfold executeConfig
  rw [if_neg hneg]
  rfl

/-- C3 witness: the amended statement at the concrete `cfgUsersOk`. -/
theorem claim_C3_amended_witness :
    executeConfig cfgUsersOk [] "2026-01-28T12:00:00Z" =
      { valid := true
        message := some "Source file parsed but contains no records."
        summary := Option.none
        records := some []
        errors := Option.none } :=
  claim_C3_amended cfgUsersOk "2026-01-28T12:00:00Z" (fun _ => rfl)

theorem transformValue_number_fail (sf : String) (v : JsValue)
    (hnn : v ≠ .vUndef) (hnl : v ≠ .vNull)
    (hnan : jsToNumber v = Option.none) :
    transformValue sf (some .number) v = (.vNum 0, some (numberErrMsg sf)) := by
  cases v with
  | vUndef => exact absurd rfl hnn
  | vNull => exact absurd rfl hnl
  | vBool b => simp [jsToNumber] at hnan
  | vNum q => simp [jsToNumber] at hnan
  | vStr s => simp [transformValue, hnan]
  | vArr l => simp [transformValue, hnan]
  | vObj fs => simp [transformValue, hnan]

/-- C4: a `number`-transform entry whose non-null, non-skipped source value
does not coerce to a number writes the fallback `0` to its target field
(stored in the record's data when no later entry overwrites that target),
appends exactly one error naming the offending source field, and makes the
record's `success` false. -/
theorem claim_C4 (cfg : MappingConfig) (importedAt : String) (index : Nat)
    (rec : SourceRecord) (pre post : List FieldMapping) (m : FieldMapping)
    (hms : cfg.fieldMappings = pre ++ m :: post)
    (ht : m.transform = some Transform.number)
    (hnn : getKey rec m.sourceField ≠ .vUndef)
    (hnl : getKey rec m.sourceField ≠ .vNull)
    (hskip : (isEmptyValue (getKey rec m.sourceField) &&
      cfg.options.skipEmptyFields) = false)
    (hnan : jsToNumber (getKey rec m.sourceField) = Option.none)
    (hpost : ∀ m' ∈ post, m'.targetField ≠ m.targetField) :
    getKey (processRecord cfg importedAt index rec).data m.targetField =
      .vNum 0 ∧
    entryErrors cfg.options rec m = [numberErrMsg m.sourceField] ∧
    numberErrMsg m.sourceField ∈ recordErrors cfg rec ∧
    (processRecord cfg importedAt index rec).meta.success = false := by
  have htv := transformValue_number_fail m.sourceField _ hnn hnl hnan
  have hw : mappedWrite cfg.options rec m = some (.vNum 0) := by
    unfold mappedWrite
    rw [ht]
    simp only [hskip, Bool.false_eq_true, if_false, htv]
  have he : entryErrors cfg.options rec m = [numberErrMsg m.sourceField] := by
    unfold entryErrors
    rw [ht]
    simp only [hskip, Bool.false_eq_true, if_false, htv]
  have hmem : numberErrMsg m.sourceField ∈ recordErrors cfg rec := by
    rw [recordErrors_eq]
    apply List.mem_append_right
    rw [List.mem_flatten]
    refine ⟨[numberErrMsg m.sourceField], ?_, by simp⟩
    rw [← he]
    apply List.mem_map_of_mem
    rw [hms]
    exact List.mem_append_right _ (List.mem_cons_self _ _)
  refine ⟨?_, he, hmem, ?_⟩
  · show getKey (recordResult cfg rec).1 m.targetField = .vNum 0
    rw [recordResult_fst, hms]
    exact getKey_foldl_dataStep_last cfg.options rec pre post m [] _ hw hpost
  · have hne : recordErrors cfg rec ≠ [] := List.ne_nil_of_mem hmem
    rcases Bool.eq_false_or_eq_true
        ((processRecord cfg importedAt index rec).meta.success) with hb | hb
    · exact absurd ((processRecord_success cfg importedAt index rec).mp hb) hne
    · exact hb

/-- C4 witness: at the concrete products configuration, `price = "abc"`
stores `0`, appends exactly the one error, and fails the record. -/
theorem claim_C4_witness :
    getKey (processRecord cfgNumFail "T" 0 recNumFail).data "price" =
      .vNum 0 ∧
    entryErrors cfgNumFail.options recNumFail
      ⟨"price", "price", some .number⟩ = [numberErrMsg "price"] ∧
    numberErrMsg "price" ∈ recordErrors cfgNumFail recNumFail ∧
    (processRecord cfgNumFail "T" 0 recNumFail).meta.success = false :=
  claim_C4 cfgNumFail "T" 0 recNumFail [⟨"name", "name", Option.none⟩] []
    ⟨"price", "price", some .number⟩ rfl rfl (fun h => nomatch h)
    (fun h => nomatch h) rfl rfl (by simp)

/-- C5: the standardized id is derived from `sourceRecord[idField]`: an
absent, null, or empty-string identifier falls back to the positional
placeholder `unknown-<index>` with a missing-identifier error recorded,
failing the record; and in general a record's `success` is true iff its
error list is empty. -/
theorem claim_C5 (cfg : MappingConfig) (t : String) (i : Nat)
    (rec : SourceRecord) :
    ((processRecord cfg t i rec).meta.success = true ↔
      recordErrors cfg rec = []) ∧
    (isEmptyValue (getKey rec cfg.idField) = true →
      (processRecord cfg t i rec).id = "unknown-" ++ toString i ∧
      missingIdMsg cfg.idField ∈ recordErrors cfg rec ∧
      (processRecord cfg t i rec).meta.success = false) := by
  refine ⟨processRecord_success cfg t i rec, fun hemp => ⟨?_, ?_, ?_⟩⟩
  · show (if jsTruthy (getKey rec cfg.idField) then
        jsToString (getKey rec cfg.idField)
      else "unknown-" ++ toString i) = "unknown-" ++ toString i
    rw [isEmptyValue_not_truthy _ hemp]
    simp
  · rw [recordErrors_eq]
    apply List.mem_append_left
    unfold idErrors
    rw [hemp]
    simp
  · have hmem : missingIdMsg cfg.idField ∈ recordErrors cfg rec := by
      rw [recordErrors_eq]
      apply List.mem_append_left
      unfold idErrors
      rw [hemp]
      simp
    have hne : recordErrors cfg rec ≠ [] := List.ne_nil_of_mem hmem
    rcases Bool.eq_false_or_eq_true
        ((processRecord cfg t i rec).meta.success) with hb | hb
    · exact absurd ((processRecord_success cfg t i rec).mp hb) hne
    · exact hb

/-- C5 witness: a record with no `id` key gets id `unknown-0`, the
missing-identifier error, and `success := false`. -/
theorem claim_C5_witness :
    isEmptyValue (getKey recNoId cfgUsersOk.idField) = true ∧
    ((processRecord cfgUsersOk "T" 0 recNoId).id = "unknown-" ++ toString 0 ∧
      missingIdMsg cfgUsersOk.idField ∈ recordErrors cfgUsersOk recNoId ∧
      (processRecord cfgUsersOk "T" 0 recNoId).meta.success = false) :=
  ⟨rfl, (claim_C5 cfgUsersOk "T" 0 recNoId).2 rfl⟩

/-- C6: under `skipEmptyFields = true`, a target field appears as a key of
a record's `data` iff some mapping onto it read a non-empty (not
absent/null/empty-string) raw source value; in particular a target field
all of whose mapped raw values are empty is left unset, not set to null. -/
theorem claim_C6 (cfg : MappingConfig) (t : String) (i : Nat)
    (rec : SourceRecord) (tf : String)
    (hskip : cfg.options.skipEmptyFields = true) :
    tf ∈ (processRecord cfg t i rec).data.map Prod.fst ↔
      ∃ m ∈ cfg.fieldMappings, m.targetField = tf ∧
        isEmptyValue (getKey rec m.sourceField) = false := by
  have hm : ∀ m : FieldMapping, (mappedWrite cfg.options rec m).isSome = true ↔
      isEmptyValue (getKey rec m.sourceField) = false := by
    intro m
    unfold mappedWrite
    cases hE : isEmptyValue (getKey rec m.sourceField) <;> simp [hE, hskip]
  show tf ∈ ((recordResult cfg rec).1.map Prod.fst) ↔ _
  rw [recordResult_fst, mem_keys_foldl_dataStep]
  simp only [List.map_nil, List.not_mem_nil, false_or, hm]

/-- C6 witness: with `email` mapped from an empty raw value under
`skipEmptyFields`, `email` is not a key of the record's data. -/
theorem claim_C6_witness :
    ¬ ("email" ∈ (processRecord cfgSkip "T" 0 recEmptyEmail).data.map
        Prod.fst) := by
  intro h
  rcases (claim_C6 cfgSkip "T" 0 recEmptyEmail "email" rfl).mp h with
    ⟨m, hm, _, hne⟩
  simp only [cfgSkip, List.mem_singleton] at hm
  subst hm
  simp [recEmptyEmail, getKey, isEmptyValue] at hne

theorem firstArrayProp_eq_none (fs : List (String × JsValue))
    (h : ∀ p ∈ fs, ∀ l, p.2 ≠ .vArr l) : firstArrayProp fs = Option.none := by
  induction fs with
  | nil => rfl
  | cons p rest ih =>
      obtain ⟨k, v⟩ := p
      cases v with
      | vArr l => exact absurd rfl (h (k, .vArr l) (List.mem_cons_self _ _) l)
      | _ => exact ih fun p hp l => h p (List.mem_cons_of_mem _ hp) l

theorem firstArrayProp_append (pre post : List (String × JsValue)) (k : String)
    (a : List JsValue) (h : ∀ p ∈ pre, ∀ l, p.2 ≠ .vArr l) :
    firstArrayProp (pre ++ (k, .vArr a) :: post) = some a := by
  induction pre with
  | nil => rfl
  | cons p rest ih =>
      obtain ⟨k0, v⟩ := p
      cases v with
      | vArr l => exact absurd rfl (h (k0, .vArr l) (List.mem_cons_self _ _) l)
      | _ => exact ih fun p hp l => h p (List.mem_cons_of_mem _ hp) l

/-- C7: on a parsed JSON object, record extraction scans the keys in order
and returns the array value of the first array-valued key; when no key
holds an array the whole object is wrapped as a one-element sequence; in
particular the object with keys `meta` and `items` yields the one-element
sequence under `items`. -/
theorem claim_C7 :
    (∀ (pre post : List (String × JsValue)) (k : String) (a : List JsValue),
      (∀ p ∈ pre, ∀ l, p.2 ≠ JsValue.vArr l) →
      parseJSONValue (.vObj (pre ++ (k, .vArr a) :: post)) = a) ∧
    (∀ fs : List (String × JsValue), (∀ p ∈ fs, ∀ l, p.2 ≠ JsValue.vArr l) →
      parseJSONValue (.vObj fs) = [.vObj fs]) ∧
    parseJSONValue (.vObj [("meta", .vObj []),
        ("items", .vArr [.vObj [("id", .vNum 1)]])]) =
      [.vObj [("id", .vNum 1)]] := by
  refine ⟨?_, ?_, rfl⟩
  · intro pre post k a h
    simp [parseJSONValue, firstArrayProp_append pre post k a h]
  · intro fs h
    simp [parseJSONValue, firstArrayProp_eq_none fs h]

/-- C7 witness: the object-wrapper example, derived from the general
first-array-valued-key statement. -/
theorem claim_C7_witness :
    parseJSONValue (.vObj [("meta", .vObj []),
        ("items", .vArr [.vObj [("id", .vNum 1)]])]) =
      [.vObj [("id", .vNum 1)]] :=
  claim_C7.1 [("meta", .vObj [])] [] "items" [.vObj [("id", .vNum 1)]]
    (by
      intro p hp l
      simp only [List.mem_singleton] at hp
      subst hp
      exact fun h => nomatch h)

/-- C8: with the shared batch timestamp factored out as a parameter, the
importer is a deterministic function: two runs on the same configuration
and parsed source, differing only in the timestamp, produce identical
records apart from the `importedAt` stamp. -/
theorem claim_C8 (cfg : MappingConfig) (src : List SourceRecord)
    (t1 t2 : String) :
    (importRecords cfg t1 src).map scrubImportedAt =
      (importRecords cfg t2 src).map scrubImportedAt := by
  unfold importRecords
  rw [List.map_map, List.map_map]
  exact List.map_congr_left fun p _ => rfl

/-- C9: a `number` transform reading an empty-string raw value with
`skipEmptyFields` disabled writes `0` with no error (JS `Number` of the empty string is `0`,
not `NaN`), and concretely such a record still has `success := true`. -/
theorem claim_C9 :
    (∀ (o : MappingOptions) (rec : SourceRecord) (m : FieldMapping),
      o.skipEmptyFields = false → m.transform = some Transform.number →
      getKey rec m.sourceField = .vStr "" →
      mappedWrite o rec m = some (.vNum 0) ∧ entryErrors o rec m = []) ∧
    getKey (processRecord cfgNumEmpty "T" 0 recPriceEmpty).data "price" =
      .vNum 0 ∧
    (processRecord cfgNumEmpty "T" 0 recPriceEmpty).meta.success = true := by
  refine ⟨?_, rfl, rfl⟩
  intro o rec m hskip ht hval
  unfold mappedWrite entryErrors
  rw [hval, hskip, ht]
  simp [transformValue, jsToNumber, strToNumber, jsTrim, trimChars]

/-- C9 witness: the universally quantified part applied to the concrete
empty-price record. -/
theorem claim_C9_witness :
    mappedWrite cfgNumEmpty.options recPriceEmpty
        ⟨"price", "price", some .number⟩ = some (.vNum 0) ∧
    entryErrors cfgNumEmpty.options recPriceEmpty
        ⟨"price", "price", some .number⟩ = [] :=
  claim_C9.1 cfgNumEmpty.options recPriceEmpty
    ⟨"price", "price", some .number⟩ rfl rfl rfl

/-- C10: an identifier value that is present but falsy without being
absent/null/empty (the number `0`, the boolean `false`) records no
missing-identifier error yet still yields the positional placeholder id
`unknown-<index>`; concretely such a record can be `success := true` while
carrying the placeholder instead of its source identifier. -/
theorem claim_C10 :
    (∀ (cfg : MappingConfig) (t : String) (i : Nat) (rec : SourceRecord),
      (getKey rec cfg.idField = .vNum 0 ∨
        getKey rec cfg.idField = .vBool false) →
      idErrors cfg rec = [] ∧
      (processRecord cfg t i rec).id = "unknown-" ++ toString i) ∧
    (processRecord cfgIdZero "T" 0 recIdZero).meta.success = true ∧
    (processRecord cfgIdZero "T" 0 recIdZero).id = "unknown-0" := by
  refine ⟨?_, rfl, rfl⟩
  intro cfg t i rec h
  have hemp : isEmptyValue (getKey rec cfg.idField) = false := by
    rcases h with h | h <;> rw [h] <;> rfl
  have htr : jsTruthy (getKey rec cfg.idField) = false := by
    rcases h with h | h <;> rw [h] <;> simp [jsTruthy]
  constructor
  · unfold idErrors
    simp [hemp]
  · show (if jsTruthy (getKey rec cfg.idField) then
        jsToString (getKey rec cfg.idField)
      else "unknown-" ++ toString i) = "unknown-" ++ toString i
    rw [htr]
    simp

/-- C10 witness: the universally quantified part applied to the concrete
zero-identifier record. -/
theorem claim_C10_witness :
    idErrors cfgIdZero recIdZero = [] ∧
    (processRecord cfgIdZero "T" 0 recIdZero).id = "unknown-" ++ toString 0 :=
  claim_C10.1 cfgIdZero "T" 0 recIdZero (Or.inl rfl)

end ImportEngine
